import Mathlib

/-!
Verification of the Latch password-manager vault engine
(`src/frontend/src-tauri/src/{vault,lib,vault_health,password_generator,oauth,password}.rs`)
against its natural-language specification.

Modelling conventions:
* Machine integers are `Nat` (with explicit `% 2 ^ 32` where u32 overflow is
  reachable); time (`SystemTime` / `Instant`) is a `Nat` count of seconds
  passed explicitly to every operation that reads the clock.
* AES-256-GCM together with the serde-JSON round trip of the entry list is
  modelled symbolically: a ciphertext records the key and the plaintext it
  was produced from, and decryption succeeds exactly under the producing key
  (the perfect-AEAD assumption of spec section 8, law 1).  Nonces are
  supplied by the caller, standing for the CSPRNG draw.
* Key-derivation functions are modelled as injective constructors of a `Key`
  type (collision-free KDFs); the derivation inputs are kept verbatim.
* The file system is the `file : Option EncryptedVault` component of `World`;
  the atomic temp-write-and-rename of the source is a single replacement of
  that component.
* Randomness (password generation) is a caller-supplied oracle function, and
  the external fuzzy matcher (`SkimMatcherV2`, a separate crate) is an
  arbitrary scoring parameter, so theorems about search hold for every
  matcher.
-/

namespace Latch

deriving instance DecidableEq for Except

/-- Source `vault.rs` `Entry`: a credential record. -/
structure Entry where
  id : String
  title : String
  username : String
  password : String
  url : Option String
  icon_url : Option String
deriving DecidableEq, Repr

/-- Source `vault.rs` `EntryPreview`: projection of `Entry` used in search results. -/
structure EntryPreview where
  id : String
  title : String
  username : String
  icon_url : Option String
deriving DecidableEq, Repr

/-- Source `impl From<Entry> for EntryPreview` in `vault.rs`. -/
def Entry.toPreview (entry : Entry) : EntryPreview :=
  { id := entry.id, title := entry.title, username := entry.username,
    icon_url := entry.icon_url }

/-- Source `vault.rs` `VaultData`: the plaintext payload of the vault file. -/
structure VaultData where
  entries : List Entry
deriving DecidableEq, Repr

/-- Symbolic 32-byte keys.  Each KDF of `password.rs` / `oauth.rs` is a
distinct injective constructor, and externally supplied raw keys
(biometric path) are `raw`. -/
inductive Key where
  | raw (bytes : List Nat)
  | pbkdf2 (password : String) (saltBytes : List Nat)
  | argon2id (secret : String) (salt : String)
deriving DecidableEq, Repr

/-- Source `password.rs` `derive_key_from_password`: PBKDF2-HMAC-SHA-256, 100 000
iterations, modelled as the injective symbolic constructor. -/
def derive_key_from_password (password : String) (saltBytes : List Nat) : Key :=
  Key.pbkdf2 password saltBytes

/-- Source `vault.rs` `EncryptedData`, with the AES-256-GCM ciphertext of the
serialized entry list modelled symbolically (see header comment). -/
structure EncryptedData where
  nonce : Nat
  keyUsed : Key
  plaintext : VaultData
deriving DecidableEq, Repr

/-- Source `vault.rs` `EncryptedVault`: the on-disk JSON container. -/
structure EncryptedVault where
  version : String
  kdf : String
  salt : String
  data : EncryptedData
deriving DecidableEq, Repr

/-- Source `Vault::encrypt_data` (the nonce argument stands for the per-call
`Aes256Gcm::generate_nonce(&mut OsRng)` draw). -/
def encrypt_data (key : Key) (nonce : Nat) (data : VaultData) : EncryptedData :=
  { nonce := nonce, keyUsed := key, plaintext := data }

/-- Source `Vault::decrypt_data`: AEAD decryption succeeds exactly under the
encrypting key. -/
def decrypt_data (key : Key) (encrypted : EncryptedData) : Except String VaultData :=
  if encrypted.keyUsed = key then .ok encrypted.plaintext
  else .error "Decryption failed"

/-- Source `vault.rs` `SESSION_TIMEOUT_SECS = 30 * 60`. -/
def SESSION_TIMEOUT_SECS : Nat := 30 * 60

/-- In-memory part of `struct Vault` in `vault.rs` (`vault_path` is fixed;
the file it points to lives in `World.file`). -/
structure Vault where
  entries : List Entry
  session_key : Option Key
  session_start : Option Nat
deriving DecidableEq, Repr

/-- The vault state together with the content of `vault.enc` on disk
(`none` = file absent). -/
structure World where
  vault : Vault
  file : Option EncryptedVault
deriving DecidableEq, Repr

/-- Source `Vault::is_unlocked`. -/
def Vault.is_unlocked (v : Vault) : Bool :=
  v.session_key.isSome

/-- Source `Vault::check_session` at clock value `now` (seconds).  A clock that went
backwards makes `SystemTime::elapsed` fail, hence the `start ≤ now` guard. -/
def Vault.check_session (v : Vault) (now : Nat) : Except String Unit :=
  if v.session_key.isNone then .error "Vault is locked"
  else
    match v.session_start with
    | some start =>
        if start ≤ now then
          if now - start > SESSION_TIMEOUT_SECS then .error "Session expired"
          else .ok ()
        else .error "Failed to get elapsed time"
    | none => .error "Invalid session"

/-- Source `Vault::refresh_session`. -/
def Vault.refresh_session (v : Vault) (now : Nat) : Vault :=
  { v with session_start := some now }

/-- Source `Vault::lock_vault`. -/
def Vault.lock_vault (v : Vault) : Vault :=
  { v with session_key := none, session_start := none, entries := [] }

/-- Source `Vault::add_entry`: requires only `is_unlocked`, appends in memory,
returns `Ok` without touching the file. -/
def add_entry (w : World) (entry : Entry) : Except String Unit × World :=
  if !w.vault.is_unlocked then (.error "Vault is locked", w)
  else (.ok (), { w with vault.entries := w.vault.entries ++ [entry] })

/-- Source `Vault::update_entry`: requires only `is_unlocked`, replaces in memory
the entry with matching id, returns `Ok` without touching the file. -/
def update_entry (w : World) (entry : Entry) : Except String Unit × World :=
  if !w.vault.is_unlocked then (.error "Vault is locked", w)
  else
    match w.vault.entries.findIdx? (fun e => e.id = entry.id) with
    | none => (.error "Entry not found", w)
    | some index =>
        (.ok (), { w with vault.entries := w.vault.entries.set index entry })

/-- Source `Vault::get_full_entry`. -/
def get_full_entry (w : World) (entry_id : String) : Except String Entry :=
  if !w.vault.is_unlocked then .error "Vault is locked"
  else
    match w.vault.entries.find? (fun e => e.id = entry_id) with
    | none => .error "Entry not found"
    | some e => .ok e

/-- Source `Vault::save_vault`: re-encrypt the in-memory entries, read the existing
container from disk, replace only its `data` field, and atomically rewrite
the file.  Returns the new file content. -/
def save_vault (v : Vault) (file : Option EncryptedVault) (nonce : Nat) :
    Except String EncryptedVault :=
  match v.session_key with
  | none => .error "Vault is locked"
  | some key =>
      let encrypted := encrypt_data key nonce { entries := v.entries }
      match file with
      | none => .error "Failed to read vault"
      | some old => .ok { old with data := encrypted }

/-- Source `Vault::delete_entry`: session check, refresh, remove by id, then
persist via `save_vault`.  Partial mutations before an error are kept,
exactly as with `&mut self` in the source. -/
def delete_entry (w : World) (entry_id : String) (now : Nat) (nonce : Nat) :
    Except String Unit × World :=
  match w.vault.check_session now with
  | .error e => (.error e, w)
  | .ok () =>
      let v := w.vault.refresh_session now
      let remaining := v.entries.filter (fun e => e.id ≠ entry_id)
      if remaining.length = v.entries.length then
        (.error "Entry not found", { w with vault := v })
      else
        let v2 := { v with entries := remaining }
        match save_vault v2 w.file nonce with
        | .error e => (.error e, { w with vault := v2 })
        | .ok newFile => (.ok (), { vault := v2, file := some newFile })

/-- Source `Vault::unlock_with_key`: read the container, whitelist the on-disk
`kdf` tag, attempt decryption, and on success install key, clock and
entries. -/
def unlock_with_key (w : World) (key : Key) (now : Nat) :
    Except String Unit × World :=
  match w.file with
  | none => (.error "Vault does not exist", w)
  | some ev =>
      if ev.kdf ≠ "oauth-pbkdf2" ∧ ev.kdf ≠ "oauth-argon2id" ∧
          ev.kdf ≠ "biometric-keychain" then
        (.error "Unknown vault authentication method", w)
      else
        match decrypt_data key ev.data with
        | .error e => (.error e, w)
        | .ok vd =>
            let v : Vault :=
              { entries := vd.entries, session_key := some key,
                session_start := some now }
            (.ok (), { w with vault := v })

/-- Source `Vault::init_with_key` (the two-argument form in `vault.rs`, which
stores an empty `salt`). -/
def init_with_key (w : World) (key : Key) (kdf : String) (nonce : Nat)
    (now : Nat) : Except String Unit × World :=
  match w.file with
  | some _ => (.error "Vault already exists", w)
  | none =>
      let encrypted := encrypt_data key nonce { entries := [] }
      let file : EncryptedVault :=
        { version := "2", kdf := kdf, salt := "", data := encrypted }
      let v : Vault :=
        { entries := [], session_key := some key, session_start := some now }
      (.ok (), { vault := v, file := some file })

/-- Value of a single hex digit, accepting both cases like the `hex` crate. -/
def hexDigitVal (c : Char) : Option Nat :=
  if '0' ≤ c ∧ c ≤ '9' then some (c.toNat - '0'.toNat)
  else if 'a' ≤ c ∧ c ≤ 'f' then some (c.toNat - 'a'.toNat + 10)
  else if 'A' ≤ c ∧ c ≤ 'F' then some (c.toNat - 'A'.toNat + 10)
  else none

/-- Source `hex::decode` on a list of characters: pairs of hex digits to bytes,
failing on an odd length or a non-hex character. -/
def hexDecodeChars : List Char → Option (List Nat)
  | [] => some []
  | [_] => none
  | hi :: lo :: rest =>
      match hexDigitVal hi, hexDigitVal lo, hexDecodeChars rest with
      | some h, some l, some bytes => some ((h * 16 + l) :: bytes)
      | _, _, _ => none

/-- Source `hex::decode` on a string. -/
def hexDecode (s : String) : Option (List Nat) :=
  hexDecodeChars s.toList

/-- Source `lib.rs` constants of `AuthAttemptState` (durations in seconds). -/
def MAX_FAILED_ATTEMPTS : Nat := 10

/-- Source `BASE_LOCKOUT_DURATION = 5 s`. -/
def BASE_LOCKOUT_DURATION : Nat := 5

/-- Source `MAX_LOCKOUT_DURATION = 300 s`. -/
def MAX_LOCKOUT_DURATION : Nat := 300

/-- Source `lib.rs` `AuthAttemptState`; `failed_attempts` is a `u32`, so it is kept
reduced modulo `2 ^ 32` by `record_failure`. -/
structure AuthAttemptState where
  failed_attempts : Nat
  last_failed_time : Option Nat
  lockout_until : Option Nat
deriving DecidableEq, Repr

/-- Source `AuthAttemptState::new`. -/
def AuthAttemptState.new : AuthAttemptState :=
  { failed_attempts := 0, last_failed_time := none, lockout_until := none }

/-- Source `AuthAttemptState::is_locked_out` at clock value `now`. -/
def AuthAttemptState.is_locked_out (a : AuthAttemptState) (now : Nat) : Bool :=
  match a.lockout_until with
  | some lockout => now < lockout
  | none => false

/-- The hard-lock error string of `record_failure`
(`MAX_LOCKOUT_DURATION.as_secs() / 60` minutes). -/
def hardLockError : String :=
  "Too many failed attempts. Account locked for " ++
    toString (MAX_LOCKOUT_DURATION / 60) ++ " minutes."

/-- The soft lockout error string of `record_failure`. -/
def softLockError (durationSecs : Nat) : String :=
  "Too many failed attempts. Please try again in " ++
    toString durationSecs ++ " seconds."

/-- Source `AuthAttemptState::record_failure`: always returns an error message;
increments the `u32` counter (wrapping), hard-locks at `≥ 10`, otherwise
applies exponential backoff `min(5·2^(failed−1), 300)` (the `Duration`
multiplication saturates, but its operands stay far below saturation since
this branch has `failed ≤ 9`). -/
def record_failure (a : AuthAttemptState) (now : Nat) :
    String × AuthAttemptState :=
  let failed := (a.failed_attempts + 1) % 2 ^ 32
  if failed ≥ MAX_FAILED_ATTEMPTS then
    (hardLockError,
      { failed_attempts := failed, last_failed_time := some now,
        lockout_until := some (now + MAX_LOCKOUT_DURATION) })
  else
    let lockout_duration :=
      min (BASE_LOCKOUT_DURATION * 2 ^ (failed - 1)) MAX_LOCKOUT_DURATION
    (softLockError lockout_duration,
      { failed_attempts := failed, last_failed_time := some now,
        lockout_until := some (now + lockout_duration) })

/-- Source `AuthAttemptState::reset`. -/
def AuthAttemptState.reset (_ : AuthAttemptState) : AuthAttemptState :=
  { failed_attempts := 0, last_failed_time := none, lockout_until := none }

/-- Result of the `unlock_vault` command model: outcome, updated guard and
world, and an instrumentation count of key-derivation (`KeyDerivation`)
invocations performed during the call. -/
structure UnlockOutcome where
  result : Except String Unit
  auth : AuthAttemptState
  world : World
  kdfCalls : Nat
deriving Repr

/-- The `unlock_vault` tauri command of `lib.rs` (master-password path):
guard check first, then read the container, require on-disk
`kdf == "password-pbkdf2"`, hex-decode the 32-byte salt, derive the PBKDF2
key, and delegate to `Vault::unlock_with_key`; the guard records a failure
(appending its message) when that fails, and resets on success. -/
def unlock_vault (auth : AuthAttemptState) (w : World) (password : String)
    (now : Nat) : UnlockOutcome :=
  if auth.is_locked_out now then
    { result := .error "Too many failed attempts. Please try again later.",
      auth := auth, world := w, kdfCalls := 0 }
  else
    match w.file with
    | none =>
        { result := .error "Failed to unlock vault", auth := auth, world := w,
          kdfCalls := 0 }
    | some ev =>
        if ev.kdf ≠ "password-pbkdf2" then
          { result := .error "Failed to unlock vault", auth := auth,
            world := w, kdfCalls := 0 }
        else
          match hexDecode ev.salt with
          | none =>
              { result := .error "Failed to unlock vault", auth := auth,
                world := w, kdfCalls := 0 }
          | some saltBytes =>
              if saltBytes.length ≠ 32 then
                { result := .error "Failed to unlock vault", auth := auth,
                  world := w, kdfCalls := 0 }
              else
                let key := derive_key_from_password password saltBytes
                match unlock_with_key w key now with
                | (.ok (), w2) =>
                    { result := .ok (), auth := auth.reset, world := w2,
                      kdfCalls := 1 }
                | (.error e, w2) =>
                    let (msg, auth2) := record_failure auth now
                    { result := .error (e ++ "\n" ++ msg), auth := auth2,
                      world := w2, kdfCalls := 1 }

/-- The best fuzzy score of an entry for a query in `Vault::search_entries`:
`max(title_score, username_score)`, each `unwrap_or(0)`.  The matcher `m`
(the external `SkimMatcherV2::fuzzy_match`, a separate crate) is an
arbitrary parameter. -/
def bestScore (m : String → String → Option Int) (e : Entry) (q : String) :
    Int :=
  max ((m e.title q).getD 0) ((m e.username q).getD 0)

/-- The scored-entry list built by the loop of `Vault::search_entries`:
empty query scores every entry `0`; otherwise an entry is kept exactly when
its best score is at least 50. -/
def scoredEntries (m : String → String → Option Int) (entries : List Entry)
    (q : String) : List (Int × EntryPreview) :=
  entries.filterMap (fun e =>
    if q = "" then some (0, e.toPreview)
    else if 50 ≤ bestScore m e q then some (bestScore m e q, e.toPreview)
    else none)

/-- The comparator `|a, b| b.0.cmp(&a.0)` of `Vault::search_entries` as a
`le` relation: `a` may precede `b` iff `b.0 ≤ a.0` (descending score). -/
def scoreDescLe (a b : Int × EntryPreview) : Bool :=
  b.1 ≤ a.1

/-- Source `Vault::search_entries`: session check and refresh, score, stable sort
by descending score, drop the scores.  Rust's `sort_by` is a stable sort
and the comparator is a total order on the keys, so its output coincides
with `List.mergeSort` under the same `le` relation. -/
def search_entries (m : String → String → Option Int) (w : World)
    (q : String) (now : Nat) : Except String (List EntryPreview) × World :=
  match w.vault.check_session now with
  | .error e => (.error e, w)
  | .ok () =>
      let v := w.vault.refresh_session now
      let sorted := (scoredEntries m v.entries q).mergeSort scoreDescLe
      (.ok (sorted.map (fun se => se.2)), { w with vault := v })

/-- Source `password_generator.rs` `PasswordOptions` (`length` is a `u32`). -/
structure PasswordOptions where
  length : Nat
  uppercase : Bool
  lowercase : Bool
  numbers : Bool
  symbols : Bool
  exclude_ambiguous : Bool
deriving DecidableEq, Repr

/-- Source `AMBIGUOUS_CHARS`. -/
def AMBIGUOUS_CHARS : List Char := ['0', 'O', '1', 'l', 'I']

/-- Source `LOWERCASE`. -/
def LOWERCASE : List Char :=
  ['a', 'b', 'c', 'd', 'e', 'f', 'g', 'h', 'i', 'j', 'k', 'l', 'm', 'n',
   'o', 'p', 'q', 'r', 's', 't', 'u', 'v', 'w', 'x', 'y', 'z']

/-- Source `UPPERCASE`. -/
def UPPERCASE : List Char :=
  ['A', 'B', 'C', 'D', 'E', 'F', 'G', 'H', 'I', 'J', 'K', 'L', 'M', 'N',
   'O', 'P', 'Q', 'R', 'S', 'T', 'U', 'V', 'W', 'X', 'Y', 'Z']

/-- Source `NUMBERS`. -/
def NUMBERS : List Char :=
  ['0', '1', '2', '3', '4', '5', '6', '7', '8', '9']

/-- Source `SYMBOLS` (quote, apostrophe, backslash and backtick written via their
code points). -/
def SYMBOLS : List Char :=
  ['!', '@', '#', '$', '%', '^', '&', '*', '(', ')', '-', '_', '=', '+',
   '[', ']', Char.ofNat 123, Char.ofNat 125, '|', Char.ofNat 92, ':', ';',
   Char.ofNat 34, Char.ofNat 39, '<', '>', ',', '.', '?', '/', '~',
   Char.ofNat 96]

/-- The selected-alphabet union built by `generate_password`. -/
def charsetOf (options : PasswordOptions) : List Char :=
  (if options.lowercase then LOWERCASE else []) ++
  (if options.uppercase then UPPERCASE else []) ++
  (if options.numbers then NUMBERS else []) ++
  (if options.symbols then SYMBOLS else [])

/-- The alphabet actually sampled by `generate_password`, after the optional
ambiguous-character exclusion. -/
def finalCharsetOf (options : PasswordOptions) : List Char :=
  if options.exclude_ambiguous then
    (charsetOf options).filter (fun c => !AMBIGUOUS_CHARS.contains c)
  else charsetOf options

/-- Source `generate_password`: validate the options, build the selected-alphabet
union, optionally filter the ambiguous characters, then draw `length`
characters.  `rand i` stands for the i-th draw of
`Uniform::new(0, final_charset.len()).sample(&mut rng)`; reduction modulo
the alphabet size keeps the draw in range as the distribution does. -/
def generate_password (options : PasswordOptions) (rand : Nat → Nat) :
    Except String String :=
  if options.length < 8 then
    .error "Password length must be at least 8 characters"
  else if options.length > 128 then
    .error "Password length cannot exceed 128 characters"
  else
    if (charsetOf options).isEmpty then
      .error "At least one character type must be selected"
    else if (finalCharsetOf options).isEmpty then
      .error "No characters available after excluding ambiguous ones"
    else
      .ok (String.mk ((List.range options.length).map (fun i =>
        (finalCharsetOf options).getD
          (rand i % (finalCharsetOf options).length) 'a')))

/-- Source `oauth.rs` `get_app_secret`: reads `LATCH_OAUTH_SECRET` from the
environment (`env` is `none` when the variable is absent), falling back to
the built-in development secret; panics (modelled as an error) when the
resulting value is shorter than 32 bytes.  `String::len` in Rust is the
UTF-8 byte length. -/
def get_app_secret (env : Option String) : Except String String :=
  let secret := env.getD "test-secret-for-development-only-32b"
  if secret.utf8ByteSize < 32 then
    .error ("LATCH_OAUTH_SECRET must be at least 32 bytes for security. Current length: "
      ++ toString secret.utf8ByteSize)
  else .ok secret

/-- Source `oauth.rs` `derive_key_from_oauth`: Argon2id (m=65536, t=3, p=4, 32-byte
output — parameters the `argon2` crate accepts, so `Params::new` and
`hash_password_into` succeed) over the app secret with salt
`"latch-vault-oauth-" ++ user_id`, modelled as the injective symbolic
constructor. -/
def derive_key_from_oauth (env : Option String) (user_id : String) :
    Except String Key :=
  match get_app_secret env with
  | .error e => .error e
  | .ok app_secret =>
      .ok (Key.argon2id app_secret ("latch-vault-oauth-" ++ user_id))

/-- Left 32-bit rotation (operand below `2 ^ 32`). -/
def rotl32 (n x : Nat) : Nat :=
  ((x <<< n) ||| (x >>> (32 - n))) % 2 ^ 32

/-- UTF-8 encoding of one character (code point to 1–4 bytes). -/
def utf8EncodeChar (c : Char) : List Nat :=
  let n := c.toNat
  if n < 128 then [n]
  else if n < 2048 then
    [192 ||| (n >>> 6), 128 ||| (n &&& 63)]
  else if n < 65536 then
    [224 ||| (n >>> 12), 128 ||| ((n >>> 6) &&& 63), 128 ||| (n &&& 63)]
  else
    [240 ||| (n >>> 18), 128 ||| ((n >>> 12) &&& 63),
     128 ||| ((n >>> 6) &&& 63), 128 ||| (n &&& 63)]

/-- UTF-8 bytes of a string (`str::as_bytes`). -/
def utf8Encode (s : String) : List Nat :=
  s.toList.foldr (fun c acc => utf8EncodeChar c ++ acc) []

/-- Big-endian byte decomposition of `n` into `k` bytes. -/
def bytesBE (k : Nat) (n : Nat) : List Nat :=
  (List.range k).map (fun i => (n >>> (8 * (k - 1 - i))) % 256)

/-- SHA-1 (FIPS 180-4) padding: append `0x80`, zero-pad to 56 mod 64, then
the 64-bit big-endian bit length. -/
def sha1Pad (msg : List Nat) : List Nat :=
  let padZeros := (64 + 56 - (msg.length + 1) % 64) % 64
  msg ++ [128] ++ List.replicate padZeros 0 ++ bytesBE 8 (8 * msg.length)

/-- The 16 initial 32-bit big-endian words of a 64-byte block. -/
def blockWords (block : List Nat) : List Nat :=
  (List.range 16).map (fun i =>
    (block.getD (4 * i) 0) * 16777216 + (block.getD (4 * i + 1) 0) * 65536 +
    (block.getD (4 * i + 2) 0) * 256 + block.getD (4 * i + 3) 0)

/-- SHA-1 message schedule: extend 16 words to 80. -/
def sha1Schedule (ws : List Nat) : List Nat :=
  (List.range 64).foldl (fun acc i =>
    acc ++ [rotl32 1 ((acc.getD (i + 13) 0) ^^^ (acc.getD (i + 8) 0) ^^^
      (acc.getD (i + 2) 0) ^^^ (acc.getD i 0))]) ws

/-- One SHA-1 round: state `(a, b, c, d, e)`, round index `t`, word `wt`. -/
def sha1Round (st : Nat × Nat × Nat × Nat × Nat) (t : Nat) (wt : Nat) :
    Nat × Nat × Nat × Nat × Nat :=
  let (a, b, c, d, e) := st
  let f :=
    if t < 20 then (b &&& c) ||| ((b ^^^ 4294967295) &&& d)
    else if t < 40 then b ^^^ c ^^^ d
    else if t < 60 then (b &&& c) ||| (b &&& d) ||| (c &&& d)
    else b ^^^ c ^^^ d
  let k :=
    if t < 20 then 1518500249
    else if t < 40 then 1859775393
    else if t < 60 then 2400959708
    else 3395469782
  let temp := (rotl32 5 a + f + e + k + wt) % 2 ^ 32
  (temp, a, rotl32 30 b, c, d)

/-- SHA-1 compression of one 64-byte block into the running state. -/
def sha1Compress (h : Nat × Nat × Nat × Nat × Nat) (block : List Nat) :
    Nat × Nat × Nat × Nat × Nat :=
  let ws := sha1Schedule (blockWords block)
  let (h0, h1, h2, h3, h4) := h
  let init : Nat × Nat × Nat × Nat × Nat := (h0, h1, h2, h3, h4)
  let (a, b, c, d, e) :=
    (List.range 80).foldl (fun st t => sha1Round st t (ws.getD t 0)) init
  ((h0 + a) % 2 ^ 32, (h1 + b) % 2 ^ 32, (h2 + c) % 2 ^ 32,
   (h3 + d) % 2 ^ 32, (h4 + e) % 2 ^ 32)

/-- Process a padded message 64 bytes at a time; `blocks` is the number of
64-byte blocks (structural recursion so that proofs can evaluate it). -/
def sha1Blocks (blocks : Nat) (h : Nat × Nat × Nat × Nat × Nat)
    (l : List Nat) : Nat × Nat × Nat × Nat × Nat :=
  match blocks with
  | 0 => h
  | n + 1 => sha1Blocks n (sha1Compress h (l.take 64)) (l.drop 64)

/-- SHA-1 digest (20 bytes) of a byte sequence; the model of the external
`sha1` crate used by `vault_health.rs` (`Sha1::digest`).  The padded
message length is an exact multiple of 64. -/
def sha1 (msg : List Nat) : List Nat :=
  let padded := sha1Pad msg
  let (h0, h1, h2, h3, h4) :=
    sha1Blocks (padded.length / 64)
      (1732584193, 4023233417, 2562383102, 271733878, 3285377520) padded
  bytesBE 4 h0 ++ bytesBE 4 h1 ++ bytesBE 4 h2 ++ bytesBE 4 h3 ++ bytesBE 4 h4

/-- One lowercase hex digit. -/
def hexDigitLower (n : Nat) : Char :=
  if n < 10 then Char.ofNat (48 + n) else Char.ofNat (97 + (n - 10))

/-- Lowercase hex characters of a byte list (`format!` with `x` on a
digest). -/
def hexCharsOfBytes (bytes : List Nat) : List Char :=
  bytes.foldr (fun b acc => hexDigitLower (b / 16) :: hexDigitLower (b % 16) :: acc) []

/-- Source `vault_health.rs` `BreachResult` (`count` is a `u32`). -/
structure BreachResult where
  hash_suffix : String
  count : Nat
deriving DecidableEq, Repr

/-- Source `vault_health.rs` `BreachedCredential`. -/
structure BreachedCredential where
  entry_id : String
  title : String
  username : String
  breach_count : Nat
deriving DecidableEq, Repr

/-- Source `vault_health.rs` `check_single_breach`: SHA-1 the password bytes,
uppercase the hex, keep the suffix from character 5, and return a stub
count of 0 (no network call). -/
def check_single_breach (password : String) : Option BreachResult :=
  let hash_hex := hexCharsOfBytes (sha1 (utf8Encode password))
  let hash_upper := hash_hex.map Char.toUpper
  some { hash_suffix := String.mk (hash_upper.drop 5), count := 0 }

/-- Source `vault_health.rs` `hash_prefix_to_anonymous`: first five hex characters,
uppercased (the hex string is ASCII, so the byte slice `[..5]` is the
5-character slice). -/
def hash_prefix_to_anonymous (hash : List Char) : String :=
  String.mk ((hash.take 5).map Char.toUpper)

/-- Source `vault_health.rs` `get_breach_hash_prefix`. -/
def get_breach_hash_prefix (password : String) : String :=
  hash_prefix_to_anonymous (hexCharsOfBytes (sha1 (utf8Encode password)))

/-- Source `vault_health.rs` `check_breach_status`: collect entries whose breach
count is positive, sorted by count descending (stable, so `mergeSort`). -/
def check_breach_status (entries : List Entry) : List BreachedCredential :=
  let collected := entries.filterMap (fun entry =>
    match check_single_breach entry.password with
    | some breach_data =>
        if breach_data.count > 0 then
          some { entry_id := entry.id, title := entry.title,
                 username := entry.username,
                 breach_count := breach_data.count }
        else none
    | none => none)
  collected.mergeSort (fun a b => b.breach_count ≤ a.breach_count)

/-- The `unlock_vault_with_key` tauri command of `lib.rs`: guard check,
hex-decode the 64-hex-digit key, then `Vault::unlock_with_key`; guard
failure recording and reset mirror the source (no KDF runs on this path). -/
def unlock_vault_with_key (auth : AuthAttemptState) (w : World)
    (key_hex : String) (now : Nat) : UnlockOutcome :=
  if auth.is_locked_out now then
    { result := .error "Too many failed attempts. Please try again later.",
      auth := auth, world := w, kdfCalls := 0 }
  else
    match hexDecode key_hex with
    | none =>
        let (_, auth2) := record_failure auth now
        { result := .error "Invalid key hex", auth := auth2, world := w,
          kdfCalls := 0 }
    | some bytes =>
        if bytes.length ≠ 32 then
          let (_, auth2) := record_failure auth now
          { result := .error "Key must be 32 bytes", auth := auth2,
            world := w, kdfCalls := 0 }
        else
          match unlock_with_key w (Key.raw bytes) now with
          | (.ok (), w2) =>
              { result := .ok (), auth := auth.reset, world := w2,
                kdfCalls := 0 }
          | (.error e, w2) =>
              let (msg, auth2) := record_failure auth now
              { result := .error (e ++ "\n" ++ msg), auth := auth2,
                world := w2, kdfCalls := 0 }

/-- The scored result list of `Vault::search_entries` before the scores are
dropped: the loop output stably sorted by descending score. -/
def searchScoredSorted (m : String → String → Option Int)
    (entries : List Entry) (q : String) : List (Int × EntryPreview) :=
  (scoredEntries m entries q).mergeSort scoreDescLe

/-- Concrete fixture: an entry stored in the example vault. -/
def exEntry1 : Entry :=
  { id := "id1", title := "Gmail", username := "alice", password := "p1",
    url := none, icon_url := none }

/-- Concrete fixture: a second entry, not yet stored. -/
def exEntry2 : Entry :=
  { id := "id2", title := "GitHub", username := "alice", password := "p2",
    url := none, icon_url := none }

/-- Concrete fixture: the session key of the example vault. -/
def exKey : Key := Key.raw (List.replicate 32 0)

/-- Concrete fixture: the on-disk container of the example vault, encrypted
under `exKey` and holding exactly `[exEntry1]`. -/
def exFile : EncryptedVault :=
  { version := "2", kdf := "biometric-keychain", salt := "",
    data := encrypt_data exKey 0 { entries := [exEntry1] } }

/-- Concrete fixture: an unlocked world whose file and memory agree. -/
def exWorld : World :=
  { vault := { entries := [exEntry1], session_key := some exKey,
               session_start := some 0 },
    file := some exFile }

/-- Concrete fixture: a vault file created by the master-password path
(`kdf = "password-pbkdf2"`, 32-byte salt stored as 64 hex digits), with the
payload encrypted under the key PBKDF2 derives from that very password and
salt. -/
def exFilePw : EncryptedVault :=
  { version := "2", kdf := "password-pbkdf2",
    salt := String.mk (List.replicate 64 '0'),
    data := encrypt_data
      (derive_key_from_password "Hunter2!Hunter2!" (List.replicate 32 0)) 0
      { entries := [exEntry1] } }

/-- Concrete fixture: a locked world holding the password-path file. -/
def exWorldPw : World :=
  { vault := { entries := [], session_key := none, session_start := none },
    file := some exFilePw }

/-- Concrete fixture: a deterministic stand-in matcher for the search
witness (scores for query "gi" mimic the spec scenario S4). -/
def exMatcher : String → String → Option Int := fun text query =>
  if query = "gi" then
    if text = "GitHub" then some 80
    else if text = "GitLab" then some 60
    else if text = "Gmail" then some 30
    else none
  else none

/-- Concrete fixture entries for the search witness. -/
def exEntryGitHub : Entry :=
  { id := "g1", title := "GitHub", username := "alice", password := "p",
    url := none, icon_url := none }

/-- Concrete fixture. -/
def exEntryGitLab : Entry :=
  { id := "g2", title := "GitLab", username := "alice", password := "p",
    url := none, icon_url := none }

/-- Concrete fixture. -/
def exEntryGmail : Entry :=
  { id := "g3", title := "Gmail", username := "alice", password := "p",
    url := none, icon_url := none }

/-- Concrete fixture: an unlocked world with the three search entries. -/
def exWorldSearch : World :=
  { vault := { entries := [exEntryGitHub, exEntryGitLab, exEntryGmail],
               session_key := some exKey, session_start := some 0 },
    file := some exFile }

/-! ## Basic facts about the vault operations -/

/-- Source `check_session` succeeding forces an installed session key. -/
theorem check_session_ok_key {v : Vault} {now : Nat}
    (h : v.check_session now = .ok ()) : ∃ key, v.session_key = some key := by
  unfold Vault.check_session at h
  cases hk : v.session_key with
  | none => simp [hk] at h
  | some key => exact ⟨key, rfl⟩

/-- Anatomy of a successful `delete_entry`. -/
theorem delete_entry_ok_spec {w : World} {entry_id : String} {now nonce : Nat}
    {w' : World} (h : delete_entry w entry_id now nonce = (.ok (), w')) :
    ∃ key old,
      w.vault.session_key = some key ∧ w.file = some old ∧
      w'.vault.entries = w.vault.entries.filter (fun e => e.id ≠ entry_id) ∧
      w'.vault.session_key = some key ∧
      w'.vault.session_start = some now ∧
      w'.file = some ⟨old.version, old.kdf, old.salt,
        encrypt_data key nonce
          ⟨w.vault.entries.filter (fun e => e.id ≠ entry_id)⟩⟩ := by
  unfold delete_entry at h
  cases hcs : w.vault.check_session now with
  | error e => rw [hcs] at h; simp at h
  | ok u =>
      rw [hcs] at h
      obtain ⟨key, hkey⟩ := check_session_ok_key (by rw [hcs])
      simp only [save_vault, Vault.refresh_session, hkey] at h
      cases hf : w.file with
      | none => rw [hf] at h; split at h <;> simp at h
      | some old =>
          rw [hf] at h
          split at h
          · simp at h
          · simp only [Prod.mk.injEq] at h
            refine ⟨key, old, hkey, rfl, ?_, ?_, ?_, ?_⟩ <;>
              simp [← h.2]

/-- C1, counterexample: on the unlocked world `exWorld`, `add_entry` returns
success, the in-memory list gains the entry, but the on-disk file is
untouched: decrypting it under the session key yields the OLD entry list,
not the updated one, refuting the claim for `add_entry`. -/
theorem claim_C1_counterexample :
    (add_entry exWorld exEntry2).1 = .ok () ∧
    exWorld.vault.is_unlocked = true ∧
    (add_entry exWorld exEntry2).2.vault.entries = [exEntry1, exEntry2] ∧
    (add_entry exWorld exEntry2).2.file = some exFile ∧
    decrypt_data exKey exFile.data = .ok { entries := [exEntry1] } ∧
    ({ entries := [exEntry1] } : VaultData) ≠ { entries := [exEntry1, exEntry2] } := by
  refine ⟨rfl, rfl, rfl, rfl, by decide, by decide⟩

/-- C1, amended: `add_entry` and `update_entry` never touch the file;
`delete_entry` alone persists — on success the file holds the old container
re-encrypted under the session key so that it decrypts to exactly the
updated (filtered) entry list. -/
theorem claim_C1_amended_persistence :
    (∀ w e, (add_entry w e).2.file = w.file) ∧
    (∀ w e, (update_entry w e).2.file = w.file) ∧
    (∀ w entry_id now nonce w',
      delete_entry w entry_id now nonce = (.ok (), w') →
      ∃ key f, w'.vault.session_key = some key ∧ w'.file = some f ∧
        decrypt_data key f.data =
          .ok { entries := w.vault.entries.filter (fun e => e.id ≠ entry_id) } ∧
        w'.vault.entries = w.vault.entries.filter (fun e => e.id ≠ entry_id)) := by
  refine ⟨?_, ?_, ?_⟩
  · intro w e
    unfold add_entry
    split <;> rfl
  · intro w e
    unfold update_entry
    split
    · rfl
    · cases w.vault.entries.findIdx? (fun x => x.id = e.id) <;> rfl
  · intro w entry_id now nonce w' h
    obtain ⟨key, old, -, -, hent, hkey, -, hfile⟩ := delete_entry_ok_spec h
    exact ⟨key, _, hkey, hfile, by simp [decrypt_data, encrypt_data], hent⟩

/-- C1, witness: the amended claim applied to a concrete successful
`delete_entry` on `exWorld`. -/
theorem claim_C1_witness :
    ∃ key f,
      (delete_entry exWorld "id1" 5 9).2.vault.session_key = some key ∧
      (delete_entry exWorld "id1" 5 9).2.file = some f ∧
      decrypt_data key f.data =
        .ok { entries := exWorld.vault.entries.filter (fun e => e.id ≠ "id1") } ∧
      (delete_entry exWorld "id1" 5 9).2.vault.entries =
        exWorld.vault.entries.filter (fun e => e.id ≠ "id1") :=
  claim_C1_amended_persistence.2.2 exWorld "id1" 5 9
    (delete_entry exWorld "id1" 5 9).2 (by decide)

/-- C3, counterexample: on `exWorld` (session started at 0) at clock 1801 s,
the session is expired (`check_session` says so), yet `add_entry` still
succeeds and leaves `session_start` at 0 instead of refreshing it, refuting
the claim for `add_entry`. -/
theorem claim_C3_counterexample :
    exWorld.vault.check_session 1801 = .error "Session expired" ∧
    (add_entry exWorld exEntry2).1 = .ok () ∧
    (add_entry exWorld exEntry2).2.vault.session_start = some 0 := by
  refine ⟨by decide, rfl, rfl⟩

/-- C3, amended: `delete_entry` alone enforces the 30-minute timeout — when
expired it fails with the `Expired` error leaving the whole state unchanged,
and on success it sets `session_start` to the current time; `add_entry`
succeeds exactly when the vault is unlocked and `update_entry` exactly when
additionally the id is present, both regardless of elapsed time and leaving
`session_start` unchanged. -/
theorem claim_C3_amended_session :
    (∀ w entry_id now nonce,
      w.vault.check_session now = .error "Session expired" →
      delete_entry w entry_id now nonce = (.error "Session expired", w)) ∧
    (∀ w entry_id now nonce w',
      delete_entry w entry_id now nonce = (.ok (), w') →
      w'.vault.session_start = some now) ∧
    (∀ w e,
      ((add_entry w e).1 = .ok () ↔ w.vault.is_unlocked = true) ∧
      (add_entry w e).2.vault.session_start = w.vault.session_start) ∧
    (∀ w e,
      ((update_entry w e).1 = .ok () ↔
        (w.vault.is_unlocked = true ∧
          (w.vault.entries.findIdx? (fun x => x.id = e.id)).isSome = true)) ∧
      (update_entry w e).2.vault.session_start = w.vault.session_start) := by
  refine ⟨?_, ?_, ?_, ?_⟩
  · intro w entry_id now nonce hexp
    unfold delete_entry
    rw [hexp]
  · intro w entry_id now nonce w' h
    obtain ⟨key, old, -, -, -, -, hstart, -⟩ := delete_entry_ok_spec h
    exact hstart
  · intro w e
    unfold add_entry
    constructor
    · cases hu : w.vault.is_unlocked <;> simp [hu]
    · cases hu : w.vault.is_unlocked <;> simp [hu]
  · intro w e
    constructor
    · unfold update_entry
      cases hu : w.vault.is_unlocked with
      | false => simp [hu]
      | true =>
          cases hidx : w.vault.entries.findIdx? (fun x => x.id = e.id) <;>
            simp [hu, hidx]
    · unfold update_entry
      cases hu : w.vault.is_unlocked with
      | false => simp [hu]
      | true =>
          cases hidx : w.vault.entries.findIdx? (fun x => x.id = e.id) <;>
            simp [hu, hidx]

/-- C3, witness: the amended claim at concrete inputs — an expired
`delete_entry` fails with `Expired` and a fresh one refreshes the clock. -/
theorem claim_C3_witness :
    delete_entry exWorld "id1" 1801 9 = (.error "Session expired", exWorld) ∧
    (delete_entry exWorld "id1" 5 9).2.vault.session_start = some 5 ∧
    ((add_entry exWorld exEntry2).1 = .ok () ↔ exWorld.vault.is_unlocked = true) :=
  ⟨claim_C3_amended_session.1 exWorld "id1" 1801 9 (by decide),
   claim_C3_amended_session.2.1 exWorld "id1" 5 9
     (delete_entry exWorld "id1" 5 9).2 (by decide),
   (claim_C3_amended_session.2.2.1 exWorld exEntry2).1⟩

/-- C10: when `delete_entry` succeeds, the rewritten container keeps the
`version`, `kdf` and `salt` fields of the file it read back, and only the
`data` field is replaced (by the fresh encryption of the surviving
entries). -/
theorem claim_C10_save_frame :
    ∀ w entry_id now nonce w',
      delete_entry w entry_id now nonce = (.ok (), w') →
      ∃ key old f, w.file = some old ∧ w'.file = some f ∧
        f.version = old.version ∧ f.kdf = old.kdf ∧ f.salt = old.salt ∧
        w.vault.session_key = some key ∧
        f.data = encrypt_data key nonce
          { entries := w.vault.entries.filter (fun e => e.id ≠ entry_id) } := by
  intro w entry_id now nonce w' h
  obtain ⟨key, old, hkey, hold, -, -, -, hfile⟩ := delete_entry_ok_spec h
  exact ⟨key, old, _, hold, hfile, rfl, rfl, rfl, hkey, rfl⟩

/-- C10, witness: the frame property at a concrete successful delete. -/
theorem claim_C10_witness :
    ∃ key old f, exWorld.file = some old ∧
      (delete_entry exWorld "id1" 5 9).2.file = some f ∧
      f.version = old.version ∧ f.kdf = old.kdf ∧ f.salt = old.salt ∧
      exWorld.vault.session_key = some key ∧
      f.data = encrypt_data key 9
        { entries := exWorld.vault.entries.filter (fun e => e.id ≠ "id1") } :=
  claim_C10_save_frame exWorld "id1" 5 9
    (delete_entry exWorld "id1" 5 9).2 (by decide)

/-- Source `Vault::unlock_with_key` rejects any container whose `kdf` tag is
`"password-pbkdf2"`: the tag is missing from its whitelist. -/
theorem unlock_with_key_rejects_password_kdf {w : World} {ev : EncryptedVault}
    (key : Key) (now : Nat) (hf : w.file = some ev)
    (hk : ev.kdf = "password-pbkdf2") :
    unlock_with_key w key now = (.error "Unknown vault authentication method", w) := by
  unfold unlock_with_key
  rw [hf]
  have hc : ev.kdf ≠ "oauth-pbkdf2" ∧ ev.kdf ≠ "oauth-argon2id" ∧
      ev.kdf ≠ "biometric-keychain" := by
    rw [hk]; refine ⟨by decide, by decide, by decide⟩
  simp [hc]

/-- C2: the master-password unlock path can NEVER succeed.  `lib.rs`
`unlock_vault` insists the on-disk `kdf` be `"password-pbkdf2"` and then
delegates to `Vault::unlock_with_key`, whose whitelist rejects exactly that
tag — so for every guard state, stored salt, password and clock the command
returns an error. -/
theorem claim_C2_password_unlock_never_succeeds :
    ∀ auth w password now ev,
      w.file = some ev → ev.kdf = "password-pbkdf2" →
      ∃ msg, (unlock_vault auth w password now).result = .error msg := by
  intro auth w password now ev hf hk
  cases hres : (unlock_vault auth w password now).result with
  | error msg => exact ⟨msg, rfl⟩
  | ok u =>
      exfalso
      unfold unlock_vault at hres
      split at hres
      · simp at hres
      · split at hres
        · simp at hres
        · next ev2 hsome =>
            rw [hf] at hsome
            injection hsome with hev
            subst hev
            split at hres
            · simp at hres
            · split at hres
              · simp at hres
              · next bytes hdec =>
                  split at hres
                  · simp at hres
                  · simp only [unlock_with_key_rejects_password_kdf
                      (derive_key_from_password password bytes) now hf hk] at hres
                    simp at hres

/-- C2, witness: a vault file exactly as the password path would create it —
`kdf = "password-pbkdf2"`, a 64-hex-digit salt, and the payload encrypted
under the very key PBKDF2 derives from the correct password and that salt —
still fails to unlock with the correct password. -/
theorem claim_C2_witness :
    exWorldPw.file = some exFilePw ∧ exFilePw.kdf = "password-pbkdf2" ∧
    decrypt_data
      (derive_key_from_password "Hunter2!Hunter2!" (List.replicate 32 0))
      exFilePw.data = .ok { entries := [exEntry1] } ∧
    ∃ msg,
      (unlock_vault AuthAttemptState.new exWorldPw "Hunter2!Hunter2!" 0).result =
        .error msg :=
  ⟨rfl, rfl, by decide,
   claim_C2_password_unlock_never_succeeds AuthAttemptState.new exWorldPw
     "Hunter2!Hunter2!" 0 exFilePw rfl rfl⟩

/-- C6: the guard backoff.  On the k-th consecutive failure (counter k−1,
within the u32 range) with k < 10, the lockout becomes
`now + min(5·2^(k−1), 300)` with the soft error; with k ≥ 10 it becomes
`now + 300` with the hard-lock error; a successful unlock resets the guard
to its zero state; and while `now < lockout_until` both unlock commands
return the locked-out error immediately, leaving guard and vault untouched
and performing no key derivation (`kdfCalls = 0`). -/
theorem claim_C6_auth_guard :
    (∀ (a : AuthAttemptState) (now k : Nat), k = a.failed_attempts + 1 →
      k < MAX_FAILED_ATTEMPTS →
      record_failure a now =
        (softLockError
            (min (BASE_LOCKOUT_DURATION * 2 ^ (k - 1)) MAX_LOCKOUT_DURATION),
         ⟨k, some now,
          some (now +
            min (BASE_LOCKOUT_DURATION * 2 ^ (k - 1)) MAX_LOCKOUT_DURATION)⟩)) ∧
    (∀ (a : AuthAttemptState) (now k : Nat), k = a.failed_attempts + 1 →
      MAX_FAILED_ATTEMPTS ≤ k → k < 2 ^ 32 →
      record_failure a now =
        (hardLockError, ⟨k, some now, some (now + MAX_LOCKOUT_DURATION)⟩)) ∧
    (∀ auth w key_hex now,
      (unlock_vault_with_key auth w key_hex now).result = .ok () →
      (unlock_vault_with_key auth w key_hex now).auth = AuthAttemptState.new) ∧
    (∀ auth w password now, auth.is_locked_out now = true →
      unlock_vault auth w password now =
        ⟨.error "Too many failed attempts. Please try again later.", auth, w, 0⟩) ∧
    (∀ auth w key_hex now, auth.is_locked_out now = true →
      unlock_vault_with_key auth w key_hex now =
        ⟨.error "Too many failed attempts. Please try again later.", auth, w, 0⟩) := by
  refine ⟨?_, ?_, ?_, ?_, ?_⟩
  · intro a now k hk hlt
    subst hk
    unfold MAX_FAILED_ATTEMPTS at hlt
    unfold record_failure
    have hm : (a.failed_attempts + 1) % 2 ^ 32 = a.failed_attempts + 1 :=
      Nat.mod_eq_of_lt (by omega)
    simp only [hm]
    rw [if_neg (by unfold MAX_FAILED_ATTEMPTS; omega)]
  · intro a now k hk hge hlt
    subst hk
    unfold MAX_FAILED_ATTEMPTS at hge
    unfold record_failure
    have hm : (a.failed_attempts + 1) % 2 ^ 32 = a.failed_attempts + 1 :=
      Nat.mod_eq_of_lt (by omega)
    simp only [hm]
    rw [if_pos (by unfold MAX_FAILED_ATTEMPTS; omega)]
  · intro auth w key_hex now h
    rcases ho : unlock_vault_with_key auth w key_hex now with ⟨res, a2, w2, kc⟩
    rw [ho] at h
    simp only at h
    subst h
    show a2 = AuthAttemptState.new
    unfold unlock_vault_with_key at ho
    split at ho
    · simp at ho
    · split at ho
      · rcases hrf : record_failure auth now with ⟨m2, a3⟩
        rw [hrf] at ho
        simp at ho
      · split at ho
        · rcases hrf : record_failure auth now with ⟨m2, a3⟩
          rw [hrf] at ho
          simp at ho
        · split at ho
          · simp only [UnlockOutcome.mk.injEq] at ho
            rw [← ho.2.1]
            rfl
          · rcases hrf : record_failure auth now with ⟨m2, a3⟩
            rw [hrf] at ho
            simp at ho
  · intro auth w password now h
    unfold unlock_vault
    rw [if_pos h]
  · intro auth w key_hex now h
    unfold unlock_vault_with_key
    rw [if_pos h]

/-- C6, witness: the guard theorem at concrete inputs — third failure
(20 s backoff), twelfth failure (hard lock), a real successful key unlock
resetting the guard, and a locked-out attempt rejected untouched. -/
theorem claim_C6_witness :
    record_failure ⟨2, none, none⟩ 100 =
      (softLockError
          (min (BASE_LOCKOUT_DURATION * 2 ^ (3 - 1)) MAX_LOCKOUT_DURATION),
       ⟨3, some 100,
        some (100 +
          min (BASE_LOCKOUT_DURATION * 2 ^ (3 - 1)) MAX_LOCKOUT_DURATION)⟩) ∧
    record_failure ⟨11, none, none⟩ 100 =
      (hardLockError, ⟨12, some 100, some (100 + MAX_LOCKOUT_DURATION)⟩) ∧
    ((unlock_vault_with_key AuthAttemptState.new exWorld
        (String.mk (List.replicate 64 '0')) 0).result = .ok () ∧
     (unlock_vault_with_key AuthAttemptState.new exWorld
        (String.mk (List.replicate 64 '0')) 0).auth = AuthAttemptState.new) ∧
    ((⟨3, some 0, some 10⟩ : AuthAttemptState).is_locked_out 5 = true ∧
     unlock_vault ⟨3, some 0, some 10⟩ exWorld "pw" 5 =
       ⟨.error "Too many failed attempts. Please try again later.",
        ⟨3, some 0, some 10⟩, exWorld, 0⟩) :=
  ⟨claim_C6_auth_guard.1 ⟨2, none, none⟩ 100 3 rfl (by decide),
   claim_C6_auth_guard.2.1 ⟨11, none, none⟩ 100 12 rfl (by decide) (by decide),
   ⟨by decide,
    claim_C6_auth_guard.2.2.1 AuthAttemptState.new exWorld
      (String.mk (List.replicate 64 '0')) 0 (by decide)⟩,
   ⟨by decide,
    claim_C6_auth_guard.2.2.2.2 ⟨3, some 0, some 10⟩ exWorld "pw" 5 (by decide)⟩⟩

/-- The union alphabet is empty exactly when no character class is
selected. -/
theorem charsetOf_eq_nil_iff (options : PasswordOptions) :
    charsetOf options = [] ↔
      (options.lowercase = false ∧ options.uppercase = false ∧
       options.numbers = false ∧ options.symbols = false) := by
  unfold charsetOf
  cases options.lowercase <;> cases options.uppercase <;>
    cases options.numbers <;> cases options.symbols <;>
      simp [LOWERCASE, UPPERCASE, NUMBERS, SYMBOLS]

/-- Membership in the union alphabet comes from a selected class. -/
theorem mem_charsetOf {c : Char} {options : PasswordOptions}
    (h : c ∈ charsetOf options) :
    (options.lowercase = true ∧ c ∈ LOWERCASE) ∨
    (options.uppercase = true ∧ c ∈ UPPERCASE) ∨
    (options.numbers = true ∧ c ∈ NUMBERS) ∨
    (options.symbols = true ∧ c ∈ SYMBOLS) := by
  unfold charsetOf at h
  simp only [List.mem_append] at h
  rcases h with ((h | h) | h) | h
  · split at h
    · exact Or.inl ⟨by assumption, h⟩
    · simp at h
  · split at h
    · exact Or.inr (Or.inl ⟨by assumption, h⟩)
    · simp at h
  · split at h
    · exact Or.inr (Or.inr (Or.inl ⟨by assumption, h⟩))
    · simp at h
  · split at h
    · exact Or.inr (Or.inr (Or.inr ⟨by assumption, h⟩))
    · simp at h

/-- Membership in the sampled alphabet additionally excludes the ambiguous
characters when requested. -/
theorem mem_finalCharsetOf {c : Char} {options : PasswordOptions}
    (h : c ∈ finalCharsetOf options) :
    c ∈ charsetOf options ∧
      (options.exclude_ambiguous = true → c ∉ AMBIGUOUS_CHARS) := by
  unfold finalCharsetOf at h
  split at h
  · rcases List.mem_filter.1 h with ⟨hmem, hflt⟩
    refine ⟨hmem, fun _ hamb => ?_⟩
    rw [Bool.not_eq_true'] at hflt
    simp at hflt
    exact hflt hamb
  · next hexcl =>
      refine ⟨h, fun he => absurd he hexcl⟩

/-- C7: `generate_password` fails exactly when the length is out of
`[8, 128]`, no class is selected (empty union), or the ambiguous-character
exclusion empties the alphabet; otherwise it returns exactly `length`
characters, each from a selected class and never ambiguous when exclusion
is on. -/
theorem claim_C7_generate_password :
    ∀ (options : PasswordOptions) (rand : Nat → Nat),
      ((∃ msg, generate_password options rand = .error msg) ↔
        (options.length < 8 ∨ options.length > 128 ∨ charsetOf options = [] ∨
          finalCharsetOf options = [])) ∧
      (∀ s, generate_password options rand = .ok s →
        s.length = options.length ∧
        ∀ c ∈ s.toList,
          ((options.lowercase = true ∧ c ∈ LOWERCASE) ∨
           (options.uppercase = true ∧ c ∈ UPPERCASE) ∨
           (options.numbers = true ∧ c ∈ NUMBERS) ∨
           (options.symbols = true ∧ c ∈ SYMBOLS)) ∧
          (options.exclude_ambiguous = true → c ∉ AMBIGUOUS_CHARS)) := by
  intro options rand
  constructor
  · constructor
    · rintro ⟨msg, h⟩
      unfold generate_password at h
      split at h
      · exact Or.inl (by assumption)
      · split at h
        · exact Or.inr (Or.inl (by assumption))
        · split at h
          · next hcs =>
              exact Or.inr (Or.inr (Or.inl (List.isEmpty_iff.1 hcs)))
          · split at h
            · next hfc =>
                exact Or.inr (Or.inr (Or.inr (List.isEmpty_iff.1 hfc)))
            · simp at h
    · intro hdisj
      cases hres : generate_password options rand with
      | error msg => exact ⟨msg, rfl⟩
      | ok s =>
          exfalso
          unfold generate_password at hres
          split at hres
          · simp at hres
          · split at hres
            · simp at hres
            · split at hres
              · simp at hres
              · split at hres
                · simp at hres
                · next hfc =>
                    next hcs =>
                      rcases hdisj with h1 | h2 | h3 | h4
                      · omega
                      · omega
                      · exact hcs (List.isEmpty_iff.2 h3)
                      · exact hfc (List.isEmpty_iff.2 h4)
  · intro s h
    unfold generate_password at h
    split at h
    · simp at h
    · split at h
      · simp at h
      · split at h
        · simp at h
        · split at h
          · simp at h
          · next hfc =>
              injection h with hs
              subst hs
              have hlen : 0 < (finalCharsetOf options).length := by
                cases hfce : finalCharsetOf options with
                | nil => exact absurd (List.isEmpty_iff.2 hfce) hfc
                | cons a l => simp [hfce]
              constructor
              · show (String.mk _).length = options.length
                simp [String.length]
              · intro c hc
                simp only [String.toList] at hc
                simp only [List.mem_map, List.mem_range] at hc
                obtain ⟨i, -, hci⟩ := hc
                have hidx : rand i % (finalCharsetOf options).length <
                    (finalCharsetOf options).length := Nat.mod_lt _ hlen
                have hmem : (finalCharsetOf options).getD
                    (rand i % (finalCharsetOf options).length) 'a' ∈
                    finalCharsetOf options := by
                  rw [List.getD_eq_getElem _ _ hidx]
                  exact List.getElem_mem hidx
                rw [← hci] at *
                obtain ⟨hcs', hexcl⟩ := mem_finalCharsetOf hmem
                exact ⟨mem_charsetOf hcs', hexcl⟩

/-- C7, witness: length 4 fails; a concrete 12-character draw from
lowercase+numbers with ambiguous exclusion satisfies the guarantees. -/
theorem claim_C7_witness :
    (∃ msg, generate_password ⟨4, false, true, true, false, true⟩
      (fun i => i * 7) = .error msg) ∧
    ("ahpw5cjry7em".length = 12 ∧
      ∀ c ∈ "ahpw5cjry7em".toList,
        ((true = true ∧ c ∈ LOWERCASE) ∨
         (false = true ∧ c ∈ UPPERCASE) ∨
         (true = true ∧ c ∈ NUMBERS) ∨
         (false = true ∧ c ∈ SYMBOLS)) ∧
        (true = true → c ∉ AMBIGUOUS_CHARS)) := by
  constructor
  · exact (claim_C7_generate_password ⟨4, false, true, true, false, true⟩
      (fun i => i * 7)).1.2 (Or.inl (by decide))
  · exact (claim_C7_generate_password ⟨12, false, true, true, false, true⟩
      (fun i => i * 7)).2 "ahpw5cjry7em" (by decide)

/-- C8: evaluation at the failing input.  With `LATCH_OAUTH_SECRET` absent,
`get_app_secret` silently substitutes the built-in development secret (36
bytes, so the length check passes) and key derivation proceeds from it —
it does NOT refuse.  Only an explicitly set value shorter than 32 bytes
aborts. -/
theorem claim_C8_secret_fallback :
    get_app_secret none = .ok "test-secret-for-development-only-32b" ∧
    derive_key_from_oauth none "user-42" =
      .ok (Key.argon2id "test-secret-for-development-only-32b"
        "latch-vault-oauth-user-42") ∧
    (∀ s : String, s.utf8ByteSize < 32 →
      ∃ msg, get_app_secret (some s) = .error msg) := by
  refine ⟨by decide, by decide, ?_⟩
  intro s hs
  unfold get_app_secret
  rw [if_pos (by simpa using hs)]
  exact ⟨_, rfl⟩

/-- Uppercasing commutes with taking the 5-character prefix, so the
computed anonymous prefix is literally the first five characters of the
uppercased hex digest. -/
theorem take_map_toUpper (l : List Char) :
    String.mk ((l.take 5).map Char.toUpper) =
      String.mk ((l.map Char.toUpper).take 5) := by
  rw [List.map_take]

/-- C9: the in-scope breach check is a stub — every password gets breach
count 0, hence the breached-credentials list is empty for every entry set
(so the breached share of the health score is zero), and the anonymous
prefix is the first 5 characters of the uppercased hex SHA-1 of the
password's UTF-8 bytes. -/
theorem claim_C9_breach_stub :
    ∀ (entries : List Entry) (password : String),
      check_breach_status entries = [] ∧
      (check_breach_status entries).length = 0 ∧
      (check_single_breach password).map BreachResult.count = some 0 ∧
      get_breach_hash_prefix password =
        String.mk
          (((hexCharsOfBytes (sha1 (utf8Encode password))).map
            Char.toUpper).take 5) := by
  intro entries password
  have hempty : check_breach_status entries = [] := by
    unfold check_breach_status
    have hnone : entries.filterMap (fun entry =>
        match check_single_breach entry.password with
        | some breach_data =>
            if breach_data.count > 0 then
              some { entry_id := entry.id, title := entry.title,
                     username := entry.username,
                     breach_count := breach_data.count }
            else none
        | none => none) = ([] : List BreachedCredential) := by
      rw [List.filterMap_eq_nil_iff]
      intro entry _
      rfl
    rw [hnone]
    simp [List.mergeSort_nil]
  refine ⟨hempty, by rw [hempty]; rfl, rfl, ?_⟩
  unfold get_breach_hash_prefix hash_prefix_to_anonymous
  exact take_map_toUpper _

set_option maxRecDepth 10000

/-- Validation: the SHA-1 model reproduces the digest the source's own unit
test expects for `"password"`, and the derived anonymous prefix. -/
theorem sha1_password_vector :
    String.mk (hexCharsOfBytes (sha1 (utf8Encode "password"))) =
      "5baa61e4c9b93f3f0682250b6cf8331b7ee68fd8" ∧
    get_breach_hash_prefix "password" = "5BAA6" := by
  refine ⟨by decide, by decide⟩

/-- Validation: FIPS 180 test vectors for the SHA-1 model. -/
theorem sha1_abc_vector :
    String.mk (hexCharsOfBytes (sha1 (utf8Encode "abc"))) =
      "a9993e364706816aba3e25717850c26c9cd0d89d" ∧
    String.mk (hexCharsOfBytes (sha1 (utf8Encode ""))) =
      "da39a3ee5e6b4b0d3255bfef95601890afd80709" := by
  refine ⟨by decide, by decide⟩

/-- The search comparator is transitive. -/
theorem scoreDescLe_trans :
    ∀ a b c : Int × EntryPreview, scoreDescLe a b = true →
      scoreDescLe b c = true → scoreDescLe a c = true := by
  intro a b c hab hbc
  simp only [scoreDescLe, decide_eq_true_eq] at *
  exact le_trans hbc hab

/-- The search comparator is total. -/
theorem scoreDescLe_total :
    ∀ a b : Int × EntryPreview, (scoreDescLe a b || scoreDescLe b a) = true := by
  intro a b
  simp only [scoreDescLe, Bool.or_eq_true, decide_eq_true_eq]
  exact le_total b.1 a.1

/-- Stability of the search sort: the sub-sequence of any fixed score is
untouched by `mergeSort` under the descending-score comparator, so entries
with tied scores keep their relative (insertion) order. -/
theorem mergeSort_filter_score (l : List (Int × EntryPreview)) (s : Int) :
    (l.mergeSort scoreDescLe).filter (fun x => x.1 = s) =
      l.filter (fun x => x.1 = s) := by
  have hpw : (l.filter (fun x => decide (x.1 = s))).Pairwise
      (fun a b => scoreDescLe a b = true) := by
    refine List.pairwise_of_forall_mem_list ?_
    intro a ha b hb
    have has := (List.mem_filter.1 ha).2
    have hbs := (List.mem_filter.1 hb).2
    simp only [decide_eq_true_eq] at has hbs
    simp only [scoreDescLe, hbs, has, decide_eq_true_eq]
    exact le_refl s
  have hsub : List.Sublist (l.filter (fun x => decide (x.1 = s)))
      (l.mergeSort scoreDescLe) :=
    List.sublist_mergeSort scoreDescLe_trans scoreDescLe_total hpw
      (List.filter_sublist l)
  have hsub2 : List.Sublist (l.filter (fun x => decide (x.1 = s)))
      ((l.mergeSort scoreDescLe).filter (fun x => decide (x.1 = s))) := by
    have h2 := List.Sublist.filter (fun x => decide (x.1 = s)) hsub
    rw [List.filter_filter] at h2
    simpa only [Bool.and_self] using h2
  have hlen : ((l.mergeSort scoreDescLe).filter (fun x => decide (x.1 = s))).length =
      (l.filter (fun x => decide (x.1 = s))).length :=
    ((List.mergeSort_perm l scoreDescLe).filter _).length_eq
  exact (hsub2.eq_of_length hlen.symm).symm

/-- The search sort produces descending scores. -/
theorem mergeSort_scores_sorted (l : List (Int × EntryPreview)) :
    (l.mergeSort scoreDescLe).Pairwise (fun a b => b.1 ≤ a.1) := by
  have h := List.sorted_mergeSort scoreDescLe_trans scoreDescLe_total l
  exact h.imp (fun hab => by simpa [scoreDescLe] using hab)

/-- With an empty query the loop scores every entry 0 in order. -/
theorem scoredEntries_empty_query (m : String → String → Option Int)
    (entries : List Entry) :
    scoredEntries m entries "" =
      entries.map (fun e => ((0 : Int), e.toPreview)) := by
  unfold scoredEntries
  rw [List.filterMap_eq_map_iff_forall_eq_some.2 ?_]
  intro e _
  rfl

/-- With a non-empty query the loop keeps exactly the entries whose best
score reaches 50, pairing each with its score, in insertion order. -/
theorem scoredEntries_query (m : String → String → Option Int)
    (entries : List Entry) (q : String) (hq : q ≠ "") :
    scoredEntries m entries q =
      (entries.filter (fun e => 50 ≤ bestScore m e q)).map
        (fun e => (bestScore m e q, e.toPreview)) := by
  induction entries with
  | nil => rfl
  | cons e rest ih =>
      simp only [scoredEntries, List.filterMap_cons] at ih ⊢
      rw [if_neg hq]
      by_cases h50 : 50 ≤ bestScore m e q
      · rw [if_pos h50, List.filter_cons_of_pos (by simpa using h50),
          List.map_cons]
        exact congrArg _ ih
      · rw [if_neg h50, List.filter_cons_of_neg (by simpa using h50)]
        exact ih

/-- Restriction of the scored-and-filtered list to one score value `s` is
exactly the insertion-ordered list of qualifying entries with that score. -/
theorem filter_map_score_eq (m : String → String → Option Int) (q : String)
    (s : Int) (entries : List Entry) :
    ((entries.filter (fun e => 50 ≤ bestScore m e q)).map
        (fun e => (bestScore m e q, e.toPreview))).filter
      (fun x => x.1 = s) =
      (entries.filter
        (fun e => bestScore m e q = s ∧ 50 ≤ bestScore m e q)).map
        (fun e => (s, e.toPreview)) := by
  induction entries with
  | nil => rfl
  | cons e rest ih =>
      by_cases h50 : 50 ≤ bestScore m e q
      · by_cases hs : bestScore m e q = s
        · rw [List.filter_cons_of_pos (by simpa using h50), List.map_cons,
            List.filter_cons_of_pos (by simpa using hs),
            List.filter_cons_of_pos
              (by simp only [decide_eq_true_eq]; exact ⟨hs, h50⟩),
            List.map_cons, hs]
          exact congrArg _ ih
        · rw [List.filter_cons_of_pos (by simpa using h50), List.map_cons,
            List.filter_cons_of_neg (by simpa using hs),
            List.filter_cons_of_neg (by simp [hs])]
          exact ih
      · rw [List.filter_cons_of_neg (by simpa using h50),
          List.filter_cons_of_neg (by simp [h50])]
        exact ih

/-- C4: when `search_entries` succeeds — an empty query returns every entry
as a preview in insertion order; a non-empty query returns exactly the
previews of entries whose best fuzzy score reaches 50, sorted by score
descending with tied scores keeping insertion order (the per-score
sub-sequences of the sorted scored list are the insertion-ordered filtered
entries); every result is a projection that carries no password or url.
Holds for EVERY matcher `m`. -/
theorem claim_C4_search_entries :
    ∀ (m : String → String → Option Int) (w : World) (q : String) (now : Nat)
      (res : List EntryPreview) (w' : World),
      search_entries m w q now = (.ok res, w') →
      (q = "" → res = w.vault.entries.map Entry.toPreview) ∧
      (q ≠ "" →
        res = (searchScoredSorted m w.vault.entries q).map (fun x => x.2) ∧
        (∀ p, p ∈ res ↔
          ∃ e ∈ w.vault.entries, 50 ≤ bestScore m e q ∧ p = e.toPreview) ∧
        (searchScoredSorted m w.vault.entries q).Pairwise
          (fun a b => b.1 ≤ a.1) ∧
        (∀ s : Int,
          (searchScoredSorted m w.vault.entries q).filter (fun x => x.1 = s) =
            (w.vault.entries.filter
              (fun e => bestScore m e q = s ∧ 50 ≤ bestScore m e q)).map
              (fun e => (s, e.toPreview)))) := by
  intro m w q now res w' h
  unfold search_entries at h
  split at h
  · simp at h
  · simp only [Prod.mk.injEq] at h
    obtain ⟨hres, -⟩ := h
    injection hres with hres
    constructor
    · intro hq
      subst hq
      rw [← hres]
      rw [show scoredEntries m (w.vault.refresh_session now).entries "" =
          scoredEntries m w.vault.entries "" from rfl]
      rw [scoredEntries_empty_query]
      rw [List.mergeSort_of_sorted (by
        refine List.pairwise_of_forall_mem_list ?_
        intro a ha b hb
        rcases List.mem_map.1 ha with ⟨e1, -, he1⟩
        rcases List.mem_map.1 hb with ⟨e2, -, he2⟩
        simp [scoreDescLe, ← he1, ← he2])]
      rw [List.map_map]
      rfl
    · intro hq
      have hsc : scoredEntries m (w.vault.refresh_session now).entries q =
          scoredEntries m w.vault.entries q := rfl
      constructor
      · rw [← hres]
        rfl
      refine ⟨?_, ?_, ?_⟩
      · intro p
        rw [← hres]
        simp only [List.mem_map]
        constructor
        · rintro ⟨x, hx, hpx⟩
          rw [List.mem_mergeSort] at hx
          rw [scoredEntries_query m _ q hq] at hx
          rcases List.mem_map.1 hx with ⟨e, he, hxe⟩
          rcases List.mem_filter.1 he with ⟨hmem, hcond⟩
          exact ⟨e, hmem, by simpa using hcond, by rw [← hpx, ← hxe]⟩
        · rintro ⟨e, hmem, h50, hpe⟩
          refine ⟨(bestScore m e q, e.toPreview), ?_, hpe.symm⟩
          rw [List.mem_mergeSort, scoredEntries_query m _ q hq]
          exact List.mem_map.2 ⟨e, List.mem_filter.2
            ⟨hmem, by simpa using h50⟩, rfl⟩
      · exact mergeSort_scores_sorted _
      · intro s
        rw [show searchScoredSorted m w.vault.entries q =
          (scoredEntries m w.vault.entries q).mergeSort scoreDescLe from rfl]
        rw [mergeSort_filter_score, scoredEntries_query m _ q hq]
        exact filter_map_score_eq m q s w.vault.entries

/-- C4, witness: the search theorem at the concrete S4-style scenario —
query "gi" returns GitHub then GitLab (scores 80 > 60), excludes Gmail
(score 30 < 50), and the sorted scored list is descending. -/
theorem claim_C4_witness :
    (∀ p, p ∈ [Entry.toPreview exEntryGitHub, Entry.toPreview exEntryGitLab] ↔
      ∃ e ∈ exWorldSearch.vault.entries,
        50 ≤ bestScore exMatcher e "gi" ∧ p = e.toPreview) ∧
    (searchScoredSorted exMatcher exWorldSearch.vault.entries "gi").Pairwise
      (fun a b => b.1 ≤ a.1) := by
  have h : search_entries exMatcher exWorldSearch "gi" 1 =
      (.ok [Entry.toPreview exEntryGitHub, Entry.toPreview exEntryGitLab],
       { vault := { entries := exWorldSearch.vault.entries,
                    session_key := some exKey, session_start := some 1 },
         file := some exFile }) := by
    simp [search_entries, Vault.check_session, SESSION_TIMEOUT_SECS,
      Vault.refresh_session, scoredEntries, bestScore, exMatcher,
      exWorldSearch, exEntryGitHub, exEntryGitLab, exEntryGmail, exKey,
      exFile, scoreDescLe, List.mergeSort, Entry.toPreview]
  have hm := claim_C4_search_entries exMatcher exWorldSearch "gi" 1 _ _ h
  exact ⟨(hm.2 (by decide)).2.1, (hm.2 (by decide)).2.2.1⟩

/-- C8, witness: the refusal branch of the theorem at a concrete short
value. -/
theorem claim_C8_witness :
    "short".utf8ByteSize < 32 ∧
      ∃ msg, get_app_secret (some "short") = .error msg :=
  ⟨by decide, claim_C8_secret_fallback.2.2 "short" (by decide)⟩
